import Mathlib

/-!
Verification of the S_Evidence_BN_Oracle orchestrator against its
natural-language specification.

The Python sources under `orchestrator/` are shallowly embedded here:
probabilities (Python floats) are modelled as exact rationals `ℚ`,
scaled fixed-point values (Python ints) as `ℤ`, on-chain stores as
explicit state (functions / records), and the external call sequence of
the loader as an explicit trace of read descriptors.
-/

namespace BNOracleSpec

/-- The fixed-point scale `SCALE = 1_000_000` shared by every module. -/
def SCALE : ℤ := 1000000

/-- Python 3 `round` applied to an exact rational value: round to the
nearest integer, ties to the even neighbour (banker rounding).  This is
the semantics of `round(x)` for a real value `x`; the embedding idealises
the double `x` as the rational it denotes. -/
def pyRound (q : ℚ) : ℤ :=
  if q - ⌊q⌋ < 1/2 then ⌊q⌋
  else if 1/2 < q - ⌊q⌋ then ⌊q⌋ + 1
  else if 2 ∣ ⌊q⌋ then ⌊q⌋ else ⌊q⌋ + 1

/-- The fixed-point conversion performed at the ledger boundary by
`claim_lifecycle_demo.py` (lines 182–183), `dynamic_claim_flow.py`
(lines 108–109) and `run_inference_and_log.py` (lines 73–74):
`int(round(p * SCALE))`. -/
def toScaledInt (p : ℚ) : ℤ :=
  pyRound (p * (SCALE : ℚ))

/-- Round half away from zero, as the words of the spec describe the
conversion (`round(probability × SCALE)` with half-away-from-zero). -/
def roundHalfAway (q : ℚ) : ℤ :=
  if 0 ≤ q then ⌊q + 1/2⌋ else -⌊-q + 1/2⌋

/-- The conversion exactly as §4.3 of the spec words it: half-away-from-zero
rounding of `p × SCALE`, the result clamped into `[0, SCALE]`.  Stated for
comparison with `toScaledInt`, the conversion the code performs. -/
def specRoundClamp (p : ℚ) : ℤ :=
  max 0 (min SCALE (roundHalfAway (p * (SCALE : ℚ))))

/-! ## Parameter store and loader (`bn_from_chain.py`) -/

/-- The external `CPTStore` contract interface as the loader sees it:
two scaled priors and one scaled CPT cell per
(evidence index, pph, ppr) triple.  Values are arbitrary integers here;
what the chain actually holds is external to the core. -/
structure CPTStoreChain where
  priorPPH : ℤ
  priorPPR : ℤ
  getEvidenceTrueCPT : ℕ → ℕ → ℕ → ℤ

/-- Descriptor of a single scalar read against the parameter store,
used to trace exactly which external calls the loader performs. -/
inductive ChainRead where
  | readPriorPPH
  | readPriorPPR
  | readCptCell (evIdx pph ppr : ℕ)
deriving DecidableEq, Repr

/-- The fixed index-to-name map of `bn_from_chain.py` line 51:
`{0: "GPS", 1: "PC", 2: "PMD", 3: "PR"}` (iterated in insertion order). -/
def idx_to_name : List (ℕ × String) :=
  [(0, "GPS"), (1, "PC"), (2, "PMD"), (3, "PR")]

/-- The in-memory parameter model the loader returns: the `priors` dict
`{"PPH": …, "PPR": …}` and the `cpts` dict, one table per evidence
variable, each table keyed by `(pph, ppr)` in insertion order. -/
structure BNModel where
  priorPPHf : ℚ
  priorPPRf : ℚ
  cpts : List (String × List ((ℕ × ℕ) × ℚ))
deriving DecidableEq, Repr

/-- One CPT table as built by the inner loops of the loader
(`for pph in (0, 1): for ppr in (0, 1)`): four cells in order
(0,0), (0,1), (1,0), (1,1), each the raw chain value divided by `SCALE`. -/
def cptTableFor (store : CPTStoreChain) (evIdx : ℕ) : List ((ℕ × ℕ) × ℚ) :=
  [((0, 0), (store.getEvidenceTrueCPT evIdx 0 0 : ℚ) / (SCALE : ℚ)),
   ((0, 1), (store.getEvidenceTrueCPT evIdx 0 1 : ℚ) / (SCALE : ℚ)),
   ((1, 0), (store.getEvidenceTrueCPT evIdx 1 0 : ℚ) / (SCALE : ℚ)),
   ((1, 1), (store.getEvidenceTrueCPT evIdx 1 1 : ℚ) / (SCALE : ℚ))]

/-- The scalar reads issued while building one CPT table. -/
def cptReadsFor (evIdx : ℕ) : List ChainRead :=
  [ChainRead.readCptCell evIdx 0 0, ChainRead.readCptCell evIdx 0 1,
   ChainRead.readCptCell evIdx 1 0, ChainRead.readCptCell evIdx 1 1]

/-- Loader `load_priors_and_cpts_from_chain` (`bn_from_chain.py` lines 34–61):
reads the two priors, divides by `SCALE`, then fills one 4-cell CPT per
evidence variable in index order, each cell divided by `SCALE`.  Returns
the model together with the trace of scalar reads performed, in call
order.  The source performs no validation of the descaled values. -/
def load_priors_and_cpts_from_chain (store : CPTStoreChain) :
    BNModel × List ChainRead :=
  (⟨(store.priorPPH : ℚ) / (SCALE : ℚ),
    (store.priorPPR : ℚ) / (SCALE : ℚ),
    idx_to_name.map (fun p => (p.2, cptTableFor store p.1))⟩,
   [ChainRead.readPriorPPH, ChainRead.readPriorPPR] ++
     (idx_to_name.map (fun p => cptReadsFor p.1)).flatten)

/-! ## Evidence registry and snapshot fold (`dynamic_claim_flow.py`) -/

/-- The list `EVIDENCE_NAMES = ["GPS", "PC", "PMD", "PR"]`
(`dynamic_claim_flow.py` line 38). -/
def EVIDENCE_NAMES : List String := ["GPS", "PC", "PMD", "PR"]

/-- One `EvidenceRegistry` row as read back by the fold: the fields the
code uses of the tuple `(id, claimId, evidenceIndex, value, timestamp,
reporter)`.  Chain indices are unsigned, hence `ℕ`. -/
structure EvidencePiece where
  evidenceIndex : ℕ
  value : ℤ
  timestamp : ℕ
deriving DecidableEq, Repr

/-- Python-dict assignment `d[k] = v` on an association list: replace the
value in place when the key exists (keys keep first-insertion order),
append otherwise. -/
def dictInsert (d : List (String × ℤ)) (k : String) (v : ℤ) :
    List (String × ℤ) :=
  if (d.map Prod.fst).contains k then
    d.map (fun p => if p.1 = k then (k, v) else p)
  else d ++ [(k, v)]

/-- Python-dict lookup on the association-list snapshot. -/
def dictGet (d : List (String × ℤ)) (k : String) : Option ℤ :=
  (d.find? (fun p => p.1 = k)).map Prod.snd

/-- One iteration of the `for eid in ids` loop of
`_fetch_evidence_for_claim` (`dynamic_claim_flow.py` lines 74–81): a row
whose `evidenceIndex` is `< len(EVIDENCE_NAMES)` assigns
`EVIDENCE_NAMES[idx] = value` into the snapshot; any other row falls
through the `if` and is skipped with no effect and no error. -/
def evidenceStep (acc : List (String × ℤ)) (ev : EvidencePiece) :
    List (String × ℤ) :=
  if h : ev.evidenceIndex < EVIDENCE_NAMES.length then
    dictInsert acc (EVIDENCE_NAMES.get ⟨ev.evidenceIndex, h⟩) ev.value
  else acc

/-- Function `_fetch_evidence_for_claim` (`dynamic_claim_flow.py` lines 66–83):
fold the ordered evidence rows of the claim into one snapshot keyed by
variable name (so a later row for the same index overwrites an earlier
one). -/
def fetch_evidence_for_claim (pieces : List EvidencePiece) :
    List (String × ℤ) :=
  pieces.foldl evidenceStep []

/-! ## Inference engine (modelled from the spec)

`BNOracle` lives in `offChain/bn_oracle/bn_oracle.py`, which is not part
of the sources provided under `src/`; only its callers are.  The engine
is therefore modelled from the spec. -/

/-- Errors the inference engine can signal (spec §4.2 / §7). -/
inductive InferError where
  | unknownVariable (name : String)
  | degenerateEvidence
deriving DecidableEq, Repr

/-- Look a CPT table up by variable name. -/
def cptLookup (cpts : List (String × List ((ℕ × ℕ) × ℚ)))
    (name : String) : Option (List ((ℕ × ℕ) × ℚ)) :=
  (cpts.find? (fun p => p.1 = name)).map Prod.snd

/-- Look one cell up in a CPT table (every loader-built table is total on
`{0,1}²`; a missing cell defaults to 0). -/
def cellLookup (table : List ((ℕ × ℕ) × ℚ)) (pph ppr : ℕ) : ℚ :=
  ((table.find? (fun c => c.1 = (pph, ppr))).map Prod.snd).getD 0

/-- Modelled from the spec: §3 treats the two marginal priors as
independent, so the joint prior weight at `(pph, ppr)` is the product of
the two marginals evaluated there. -/
def jointPrior (m : BNModel) (pph ppr : ℕ) : ℚ :=
  (if pph = 1 then m.priorPPHf else 1 - m.priorPPHf) *
    (if ppr = 1 then m.priorPPRf else 1 - m.priorPPRf)

/-- One factor of the likelihood product for one observed variable:
`P(var = observedValue | pph, ppr)` with `P(var=0|·) = 1 - P(var=1|·)`;
an evidence name with no CPT is an `UnknownVariableError`. -/
def factorStep (m : BNModel) (pph ppr : ℕ)
    (acc : Except InferError ℚ) (p : String × ℤ) : Except InferError ℚ :=
  match acc with
  | Except.error e => Except.error e
  | Except.ok w =>
    match cptLookup m.cpts p.1 with
    | none => Except.error (InferError.unknownVariable p.1)
    | some t =>
      let c := cellLookup t pph ppr
      Except.ok (w * (if p.2 = (1 : ℤ) then c else 1 - c))

/-- Modelled from the spec: §4.2 step 2 — the likelihood factor of one
joint hidden state: the product over every evidence variable present of
`P(var = observedValue | pph, ppr)`. -/
def evidenceFactor (m : BNModel) (ev : List (String × ℤ))
    (pph ppr : ℕ) : Except InferError ℚ :=
  ev.foldl (factorStep m pph ppr) (Except.ok (1 : ℚ))

/-- Unnormalised weight of one joint hidden state (spec §4.2 step 2):
joint prior times the evidence factor. -/
def hiddenWeight (m : BNModel) (ev : List (String × ℤ))
    (pph ppr : ℕ) : Except InferError ℚ :=
  (evidenceFactor m ev pph ppr).map (fun f => jointPrior m pph ppr * f)

/-- Modelled from the spec: `BNOracle.infer`
(`offChain/bn_oracle/bn_oracle.py`, not under `src/`), following §4.2:
enumerate the 4 joint hidden states, weight each by prior × likelihood,
fail with `DegenerateEvidenceError` when all weights vanish, otherwise
normalise and marginalise to `(P(PPH=1|ev), P(PPR=1|ev))`. -/
def infer (m : BNModel) (ev : List (String × ℤ)) :
    Except InferError (ℚ × ℚ) :=
  match hiddenWeight m ev 0 0, hiddenWeight m ev 0 1,
      hiddenWeight m ev 1 0, hiddenWeight m ev 1 1 with
  | Except.ok w00, Except.ok w01, Except.ok w10, Except.ok w11 =>
    let total := w00 + w01 + w10 + w11
    if total = 0 then Except.error InferError.degenerateEvidence
    else Except.ok ((w10 + w11) / total, (w01 + w11) / total)
  | Except.error e, _, _, _ => Except.error e
  | _, Except.error e, _, _ => Except.error e
  | _, _, Except.error e, _ => Except.error e
  | _, _, _, Except.error e => Except.error e

/-! ## Posterior sync step (`dynamic_claim_flow.py` lines 86–139) -/

/-- The `ClaimRegistry` state as the sync step touches it: the stored
fixed-point posterior pair per claim id (the other struct fields are
not touched by the core and never written by `submitInference`). -/
def ClaimState : Type := ℕ → ℤ × ℤ

/-- Call `OracleController.submitInference(claimId, scaledPPH, scaledPPR)`:
overwrite the stored posterior pair of that claim. -/
def submitInference (s : ClaimState) (cid : ℕ) (pph ppr : ℤ) :
    ClaimState :=
  fun c => if c = cid then (pph, ppr) else s c

/-- Outcome of one `_compute_and_commit_posterior` call.  `committed`
carries the pair submitted and the pair read back from the registry
afterwards; the source has no comparison between them and no error path
for a mismatch. -/
inductive SyncResult where
  | skipped
  | inferFailed (e : InferError)
  | committed (submitted readback : ℤ × ℤ)
deriving DecidableEq, Repr

/-- Function `_compute_and_commit_posterior` (`dynamic_claim_flow.py` lines
86–139): fold the evidence rows of the claim into a snapshot; return at once
when the snapshot is empty; otherwise run inference, scale both
components with `int(round(p * SCALE))`, submit them, and read the
claim row back.  `interfere` models whatever the external store does
between the submit transaction and the read-back (`id` when nothing
intervenes; spec §5 notes concurrent writers are not serialised).  The
third component counts inference-engine invocations. -/
def compute_and_commit_posterior (m : BNModel)
    (pieces : List EvidencePiece) (cid : ℕ) (s : ClaimState)
    (interfere : ClaimState → ClaimState) :
    SyncResult × ClaimState × ℕ :=
  let evidence := fetch_evidence_for_claim pieces
  if evidence = [] then (SyncResult.skipped, s, 0)
  else
    match infer m evidence with
    | Except.error e => (SyncResult.inferFailed e, s, 1)
    | Except.ok post =>
      let scaled_pph := toScaledInt post.1
      let scaled_ppr := toScaledInt post.2
      let s1 := submitInference s cid scaled_pph scaled_ppr
      let s2 := interfere s1
      let readback := s2 cid
      (SyncResult.committed (scaled_pph, scaled_ppr) readback, s2, 1)

/-! ## Single-shot CLI driver (`run_inference_and_log.py`) -/

/-- The four parsed flags of `parse_args` (lines 42–48); each has
`default=0`, so an omitted flag parses to 0. -/
structure InferArgs where
  gps : ℤ
  pc : ℤ
  pmd : ℤ
  pr : ℤ
deriving DecidableEq, Repr

/-- Parser `parse_args`: each of `--gps --pc --pmd --pr` defaults to 0 when not
given on the command line (`None` models absence). -/
def parse_args (gpsOpt pcOpt pmdOpt prOpt : Option ℤ) : InferArgs :=
  ⟨gpsOpt.getD 0, pcOpt.getD 0, pmdOpt.getD 0, prOpt.getD 0⟩

/-- The evidence dict built by `main` (`run_inference_and_log.py` line
68): always all four variables, in this order. -/
def cliEvidence (a : InferArgs) : List (String × ℤ) :=
  [("GPS", a.gps), ("PC", a.pc), ("PMD", a.pmd), ("PR", a.pr)]

/-! ## Concrete stores used as test vectors -/

/-- A parameter store with uniform priors `0.5` and a GPS CPT whose
cells are `1/SCALE` when `pph = 1` and `639/SCALE` otherwise (every
other table uniform `0.5`).  All values are valid scaled probabilities
in `[0, SCALE]`. -/
def exStore : CPTStoreChain :=
  ⟨500000, 500000,
   fun i p _ => if i = 0 then (if p = 1 then 1 else 639) else 500000⟩

/-- The model the loader builds from `exStore`. -/
def exModel : BNModel := (load_priors_and_cpts_from_chain exStore).1

/-- The neutral store written by `fill_cpts.py`: every prior and every
CPT cell is `500000`, i.e. probability `0.5`. -/
def uniStore : CPTStoreChain := ⟨500000, 500000, fun _ _ _ => 500000⟩

/-- The model the loader builds from `uniStore`. -/
def uniModel : BNModel := (load_priors_and_cpts_from_chain uniStore).1

/-- A parameter store holding the out-of-range scaled prior
`priorPPH = 2 × SCALE` (external-store corruption). -/
def badStore : CPTStoreChain := ⟨2000000, 500000, fun _ _ _ => 500000⟩

/-! # Theorems -/

/-- Auxiliary: `find?` over a Python-dict in-place value replacement of
key `k`, looked up at `k` itself. -/
theorem find?_mapReplace (d : List (String × ℤ)) (k : String) (v : ℤ) :
    List.find? (fun p => p.1 = k) (d.map (fun p => if p.1 = k then (k, v) else p)) =
      (List.find? (fun p => p.1 = k) d).map (fun _ => (k, v)) := by
  induction d with
  | nil => rfl
  | cons hd tl ih =>
    by_cases hk : hd.1 = k
    · simp [List.find?_cons, hk]
    · simp [List.find?_cons, hk, ih]

/-- Auxiliary: in-place value replacement of key `k2` is invisible to a
`find?` for a different key `k`. -/
theorem find?_mapReplace_other (d : List (String × ℤ)) (k k2 : String) (v : ℤ)
    (hne : k ≠ k2) :
    List.find? (fun p => p.1 = k) (d.map (fun p => if p.1 = k2 then (k2, v) else p)) =
      List.find? (fun p => p.1 = k) d := by
  induction d with
  | nil => rfl
  | cons hd tl ih =>
    rw [List.map_cons]
    by_cases hk2 : hd.1 = k2
    · rw [if_pos hk2]
      rw [List.find?_cons_of_neg _ (by simpa using fun hc => hne hc.symm)]
      rw [List.find?_cons_of_neg _
        (by simp only [decide_eq_true_eq, hk2]; exact fun hc => hne hc.symm)]
      exact ih
    · rw [if_neg hk2]
      by_cases hk : hd.1 = k
      · rw [List.find?_cons_of_pos _ (by simpa using hk),
          List.find?_cons_of_pos _ (by simpa using hk)]
      · rw [List.find?_cons_of_neg _ (by simpa using hk),
          List.find?_cons_of_neg _ (by simpa using hk)]
        exact ih

/-- Python-dict assignment then lookup of the same key yields the
assigned value. -/
theorem dictGet_dictInsert_same (d : List (String × ℤ)) (k : String)
    (v : ℤ) : dictGet (dictInsert d k v) k = some v := by
  unfold dictInsert dictGet
  by_cases h : (d.map Prod.fst).contains k
  · rw [if_pos h, find?_mapReplace]
    rw [List.contains_iff_exists_mem_beq] at h
    obtain ⟨a, ha, hbeq⟩ := h
    obtain ⟨p, hp, hpk⟩ := List.mem_map.1 ha
    cases hfind : List.find? (fun p => p.1 = k) d with
    | some x => simp
    | none =>
      exfalso
      rw [List.find?_eq_none] at hfind
      have hak : a = k := (by simpa using hbeq : k = a).symm
      exact absurd (by simp [hpk, hak]) (hfind p hp)
  · rw [if_neg h]
    have hnone : d.find? (fun p => p.1 = k) = none := by
      rw [List.find?_eq_none]
      intro p hp hbeq
      apply h
      rw [List.contains_iff_exists_mem_beq]
      refine ⟨p.1, List.mem_map_of_mem Prod.fst hp, ?_⟩
      simp only [beq_iff_eq]
      exact (by simpa using hbeq : p.1 = k).symm
    rw [List.find?_append, hnone]
    simp [List.find?_cons]

/-- Python-dict assignment of one key leaves lookups of other keys
unchanged. -/
theorem dictGet_dictInsert_other (d : List (String × ℤ)) (k k2 : String)
    (v : ℤ) (hne : k ≠ k2) :
    dictGet (dictInsert d k2 v) k = dictGet d k := by
  unfold dictInsert dictGet
  by_cases h : (d.map Prod.fst).contains k2
  · rw [if_pos h, find?_mapReplace_other d k k2 v hne]
  · rw [if_neg h, List.find?_append]
    cases hfind : d.find? (fun p => p.1 = k) with
    | some x => simp
    | none => simp [List.find?_cons, Ne.symm hne]

/-- All keys present after a dict assignment come from the old keys
plus the assigned key. -/
theorem dictInsert_keys (d : List (String × ℤ)) (k : String) (v : ℤ) :
    ∀ k2 ∈ (dictInsert d k v).map Prod.fst,
      k2 = k ∨ k2 ∈ d.map Prod.fst := by
  intro k2 hk2
  unfold dictInsert at hk2
  by_cases h : (d.map Prod.fst).contains k
  · rw [if_pos h] at hk2
    simp only [List.map_map, List.mem_map, Function.comp] at hk2
    obtain ⟨p, hp, hpe⟩ := hk2
    by_cases hpk : p.1 = k
    · left
      rw [if_pos hpk] at hpe
      exact hpe.symm
    · right
      rw [if_neg hpk] at hpe
      exact hpe ▸ List.mem_map_of_mem Prod.fst hp
  · rw [if_neg h] at hk2
    simp only [List.map_append, List.mem_append] at hk2
    rcases hk2 with hk2 | hk2
    · right; exact hk2
    · left; simpa using hk2

/-- C4: on every invocation the loader performs exactly 18 scalar reads
from the parameter store — the 2 priors followed by one CPT-cell read
for each of the 4 evidence variables at each of the 4 hidden-state
combinations, in the fixed index order 0:GPS, 1:PC, 2:PMD, 3:PR — and
the returned model has exactly the 4 named CPTs with exactly 4 entries
each. -/
theorem C4_theorem (store : CPTStoreChain) :
    (load_priors_and_cpts_from_chain store).2.length = 18 ∧
    (load_priors_and_cpts_from_chain store).2 =
      [ChainRead.readPriorPPH, ChainRead.readPriorPPR,
       ChainRead.readCptCell 0 0 0, ChainRead.readCptCell 0 0 1,
       ChainRead.readCptCell 0 1 0, ChainRead.readCptCell 0 1 1,
       ChainRead.readCptCell 1 0 0, ChainRead.readCptCell 1 0 1,
       ChainRead.readCptCell 1 1 0, ChainRead.readCptCell 1 1 1,
       ChainRead.readCptCell 2 0 0, ChainRead.readCptCell 2 0 1,
       ChainRead.readCptCell 2 1 0, ChainRead.readCptCell 2 1 1,
       ChainRead.readCptCell 3 0 0, ChainRead.readCptCell 3 0 1,
       ChainRead.readCptCell 3 1 0, ChainRead.readCptCell 3 1 1] ∧
    ((load_priors_and_cpts_from_chain store).1.cpts.map
        (fun t => (t.1, t.2.length))) =
      [("GPS", 4), ("PC", 4), ("PMD", 4), ("PR", 4)] := by
  refine ⟨rfl, rfl, ?_⟩
  simp [load_priors_and_cpts_from_chain, idx_to_name, cptTableFor]

/-- C6 counterexample: an evidence piece with index 4 (outside `[0,4)`)
is silently ignored — the fold completes normally, the piece leaves the
snapshot untouched, and no `TopologyMismatchError` (or any failure) is
signalled, contrary to the claim. -/
theorem C6_counterexample :
    fetch_evidence_for_claim [⟨4, 1, 0⟩] = [] ∧
    fetch_evidence_for_claim [⟨0, 1, 0⟩, ⟨4, 1, 7⟩] =
      fetch_evidence_for_claim [⟨0, 1, 0⟩] := by
  constructor <;> rfl

/-- C6 (amended): an evidence piece whose variable index lies outside
`[0,4)` is silently skipped by `_fetch_evidence_for_claim`: removing it
from the sequence leaves the resulting snapshot unchanged, and no error
is raised. -/
theorem C6_theorem (pre post : List EvidencePiece) (ev : EvidencePiece)
    (h : EVIDENCE_NAMES.length ≤ ev.evidenceIndex) :
    fetch_evidence_for_claim (pre ++ ev :: post) =
      fetch_evidence_for_claim (pre ++ post) := by
  unfold fetch_evidence_for_claim
  rw [List.foldl_append, List.foldl_append, List.foldl_cons]
  have : evidenceStep (pre.foldl evidenceStep []) ev =
      pre.foldl evidenceStep [] := by
    unfold evidenceStep
    rw [dif_neg (by omega)]
  rw [this]

/-- C6 witness: a concrete out-of-range piece (index 4) inserted
between two in-range pieces does not change the snapshot. -/
theorem C6_witness :
    fetch_evidence_for_claim ([⟨0, 1, 0⟩] ++ (⟨4, 1, 7⟩ : EvidencePiece) :: [⟨2, 0, 9⟩]) =
      fetch_evidence_for_claim ([⟨0, 1, 0⟩] ++ [⟨2, 0, 9⟩]) :=
  C6_theorem [⟨0, 1, 0⟩] [⟨2, 0, 9⟩] ⟨4, 1, 7⟩ (by decide)

/-- C5: the snapshot fold is last-write-wins per variable: for every
in-range variable index, the snapshot value under the name of that variable
is the value of the LAST evidence piece in the sequence carrying that
index (and absent when no piece carries it). -/
theorem C5_theorem (pieces : List EvidencePiece) (i : ℕ)
    (h : i < EVIDENCE_NAMES.length) :
    dictGet (fetch_evidence_for_claim pieces) (EVIDENCE_NAMES.get ⟨i, h⟩) =
      (pieces.reverse.find? (fun ev => ev.evidenceIndex == i)).map
        (fun ev => ev.value) := by
  unfold fetch_evidence_for_claim
  induction pieces using List.reverseRecOn with
  | nil => rfl
  | append_singleton ps ev ih =>
    rw [List.foldl_append, List.foldl_cons, List.foldl_nil,
      List.reverse_append, List.reverse_singleton, List.singleton_append,
      List.find?_cons]
    by_cases hidx : ev.evidenceIndex < EVIDENCE_NAMES.length
    · by_cases hie : ev.evidenceIndex = i
      · have hbeq : (ev.evidenceIndex == i) = true := by simpa using hie
        rw [hbeq]
        have hget : EVIDENCE_NAMES.get ⟨ev.evidenceIndex, hidx⟩ =
            EVIDENCE_NAMES.get ⟨i, h⟩ := by
          subst hie; rfl
        rw [evidenceStep, dif_pos hidx, hget, dictGet_dictInsert_same]
        rfl
      · have hbeq : (ev.evidenceIndex == i) = false := by simpa using hie
        rw [hbeq]
        have hnodup : EVIDENCE_NAMES.Nodup := by decide
        have hget : EVIDENCE_NAMES.get ⟨i, h⟩ ≠
            EVIDENCE_NAMES.get ⟨ev.evidenceIndex, hidx⟩ := by
          intro hc
          exact hie
            (Fin.mk.inj ((List.Nodup.get_inj_iff hnodup).1 hc)).symm
        rw [evidenceStep, dif_pos hidx,
          dictGet_dictInsert_other _ _ _ _ hget]
        exact ih
    · have hbeq : (ev.evidenceIndex == i) = false := by
        simp only [beq_eq_false_iff_ne]
        omega
      rw [hbeq, evidenceStep, dif_neg hidx]
      exact ih

/-- C5 witness: with pieces GPS:=1 then GPS:=0 then PMD:=1, the
snapshot holds GPS = 0, the value of the last GPS piece. -/
theorem C5_witness :
    dictGet
        (fetch_evidence_for_claim [⟨0, 1, 0⟩, ⟨0, 0, 5⟩, ⟨2, 1, 6⟩])
        (EVIDENCE_NAMES.get ⟨0, by decide⟩) =
      (([⟨0, 1, 0⟩, ⟨0, 0, 5⟩,
          (⟨2, 1, 6⟩ : EvidencePiece)].reverse.find?
            (fun ev => ev.evidenceIndex == 0)).map (fun ev => ev.value)) :=
  C5_theorem [⟨0, 1, 0⟩, ⟨0, 0, 5⟩, ⟨2, 1, 6⟩] 0 (by decide)

/-- C8: when the evidence snapshot fetched for the claim is empty, the
sync step returns at once: the inference engine is not invoked (zero
engine calls), nothing is submitted, and the claim registry state —
in particular the stored fixed-point posterior pair — is unchanged. -/
theorem C8_theorem (m : BNModel) (pieces : List EvidencePiece) (cid : ℕ)
    (s : ClaimState) (interfere : ClaimState → ClaimState)
    (h : fetch_evidence_for_claim pieces = []) :
    compute_and_commit_posterior m pieces cid s interfere =
      (SyncResult.skipped, s, 0) := by
  unfold compute_and_commit_posterior
  rw [h]
  rfl

/-- C8 witness: a claim whose only evidence row has the out-of-range
index 9 folds to an empty snapshot, and the sync step leaves the
registry untouched with zero engine invocations. -/
theorem C8_witness :
    compute_and_commit_posterior uniModel [⟨9, 1, 0⟩] 0
        (fun _ => ((0 : ℤ), (0 : ℤ))) id =
      (SyncResult.skipped, fun _ => ((0 : ℤ), (0 : ℤ)), 0) :=
  C8_theorem uniModel [⟨9, 1, 0⟩] 0 (fun _ => ((0 : ℤ), (0 : ℤ))) id rfl

/-- C10: the single-shot CLI driver always builds a total evidence
assignment over all four variables (exactly the keys GPS, PC, PMD, PR,
so no inference is ever run on an incomplete assignment), and a flag not
given on the command line contributes the observed value 0. -/
theorem C10_theorem (g p m r : Option ℤ) :
    (cliEvidence (parse_args g p m r)).map Prod.fst = EVIDENCE_NAMES ∧
    (cliEvidence (parse_args g p m r)).length = 4 ∧
    (g = none → dictGet (cliEvidence (parse_args g p m r)) "GPS" = some 0) ∧
    (p = none → dictGet (cliEvidence (parse_args g p m r)) "PC" = some 0) ∧
    (m = none → dictGet (cliEvidence (parse_args g p m r)) "PMD" = some 0) ∧
    (r = none → dictGet (cliEvidence (parse_args g p m r)) "PR" = some 0) := by
  refine ⟨rfl, rfl, ?_, ?_, ?_, ?_⟩ <;> rintro rfl <;>
    simp [cliEvidence, parse_args, dictGet, List.find?, EVIDENCE_NAMES]

/-- C10 witness: with no flags given, the driver observes every
variable as 0 and the assignment is total. -/
theorem C10_witness :
    (cliEvidence (parse_args none none none none)).map Prod.fst =
        EVIDENCE_NAMES ∧
      dictGet (cliEvidence (parse_args none none none none)) "GPS" =
        some 0 :=
  ⟨(C10_theorem none none none none).1,
   (C10_theorem none none none none).2.2.1 rfl⟩

/-- Folding evidence pieces only ever puts keys drawn from
`EVIDENCE_NAMES` into the snapshot, whatever the starting accumulator
held. -/
theorem fetch_aux_keys (pieces : List EvidencePiece) :
    ∀ (acc : List (String × ℤ)),
      (∀ k ∈ acc.map Prod.fst, k ∈ EVIDENCE_NAMES) →
      ∀ k ∈ (pieces.foldl evidenceStep acc).map Prod.fst,
        k ∈ EVIDENCE_NAMES := by
  induction pieces with
  | nil => intro acc hacc; simpa using hacc
  | cons ev tl ih =>
    intro acc hacc
    rw [List.foldl_cons]
    apply ih
    intro k hk
    unfold evidenceStep at hk
    by_cases hidx : ev.evidenceIndex < EVIDENCE_NAMES.length
    · rw [dif_pos hidx] at hk
      rcases dictInsert_keys _ _ _ k hk with hke | hkm
      · rw [hke]; exact List.get_mem _ _ _
      · exact hacc k hkm
    · rw [dif_neg hidx] at hk
      exact hacc k hk

/-- Every name of the fixed vocabulary has a CPT table in any
loader-built model. -/
theorem loader_cptLookup_isSome (store : CPTStoreChain) (name : String)
    (h : name ∈ EVIDENCE_NAMES) :
    (cptLookup
      (load_priors_and_cpts_from_chain store).1.cpts name).isSome := by
  fin_cases h <;>
    simp [cptLookup, load_priors_and_cpts_from_chain, idx_to_name,
      List.find?_cons, cptTableFor]

/-- When every evidence name has a CPT table, the likelihood fold never
fails, whatever value the accumulator starts from. -/
theorem factorFold_ok (m : BNModel) (pph ppr : ℕ) :
    ∀ (ev : List (String × ℤ)) (w0 : ℚ),
      (∀ p ∈ ev, (cptLookup m.cpts p.1).isSome) →
      ∃ w, ev.foldl (factorStep m pph ppr) (Except.ok w0) =
        Except.ok w := by
  intro ev
  induction ev with
  | nil => intro w0 _; exact ⟨w0, rfl⟩
  | cons p tl ih =>
    intro w0 h
    rw [List.foldl_cons]
    have hp := h p (by simp)
    cases hlk : cptLookup m.cpts p.1 with
    | none => rw [hlk] at hp; simp at hp
    | some t =>
      have hstep : factorStep m pph ppr (Except.ok w0) p =
          Except.ok (w0 * (if p.2 = (1 : ℤ) then cellLookup t pph ppr
            else 1 - cellLookup t pph ppr)) := by
        unfold factorStep
        rw [hlk]
      rw [hstep]
      exact ih _ (fun q hq => h q (by simp [hq]))

/-- C9: the snapshot fold only produces keys from the fixed vocabulary
GPS, PC, PMD, PR, so inference on a loader-built model over a folded
snapshot can never fail with an `UnknownVariableError`. -/
theorem C9_theorem (store : CPTStoreChain) (pieces : List EvidencePiece) :
    (∀ k ∈ (fetch_evidence_for_claim pieces).map Prod.fst,
      k ∈ EVIDENCE_NAMES) ∧
    ∀ n, infer (load_priors_and_cpts_from_chain store).1
        (fetch_evidence_for_claim pieces) ≠
      Except.error (InferError.unknownVariable n) := by
  have hkeys := fetch_aux_keys pieces [] (by simp)
  refine ⟨hkeys, ?_⟩
  intro n hc
  have hsome : ∀ p ∈ fetch_evidence_for_claim pieces,
      (cptLookup (load_priors_and_cpts_from_chain store).1.cpts
        p.1).isSome := by
    intro p hp
    exact loader_cptLookup_isSome store p.1
      (hkeys p.1 (List.mem_map_of_mem Prod.fst hp))
  obtain ⟨w00, h00⟩ := factorFold_ok
    (load_priors_and_cpts_from_chain store).1 0 0 _ 1 hsome
  obtain ⟨w01, h01⟩ := factorFold_ok
    (load_priors_and_cpts_from_chain store).1 0 1 _ 1 hsome
  obtain ⟨w10, h10⟩ := factorFold_ok
    (load_priors_and_cpts_from_chain store).1 1 0 _ 1 hsome
  obtain ⟨w11, h11⟩ := factorFold_ok
    (load_priors_and_cpts_from_chain store).1 1 1 _ 1 hsome
  unfold infer hiddenWeight evidenceFactor at hc
  rw [h00, h01, h10, h11] at hc
  simp only [Except.map] at hc
  split at hc <;> simp at hc

/-- C9 witness: folding the single piece GPS:=1 yields the key GPS, a
member of the vocabulary, and inference on the neutral model over that
snapshot is not an unknown-variable failure. -/
theorem C9_witness :
    ("GPS" ∈ EVIDENCE_NAMES) ∧
    infer (load_priors_and_cpts_from_chain uniStore).1
        (fetch_evidence_for_claim [⟨0, 1, 0⟩]) ≠
      Except.error (InferError.unknownVariable "PPH") :=
  ⟨(C9_theorem uniStore [⟨0, 1, 0⟩]).1 "GPS" (by decide),
   (C9_theorem uniStore [⟨0, 1, 0⟩]).2 "PPH"⟩

/-- C3 counterexample: from a store whose raw `priorPPH` is
`2 × SCALE`, the loader returns a model whose descaled PPH prior is 2 —
outside `[0,1]` — rather than failing with a `ParameterRangeError`:
no validation is performed. -/
theorem C3_counterexample :
    (load_priors_and_cpts_from_chain badStore).1.priorPPHf = 2 ∧
    ¬ (load_priors_and_cpts_from_chain badStore).1.priorPPHf ≤ 1 := by
  constructor <;>
    norm_num [load_priors_and_cpts_from_chain, badStore, SCALE]

/-- C3 (amended): the loader divides every raw prior and CPT value
fetched from the parameter store by `SCALE` and returns the resulting
model unconditionally — it performs no range validation, so out-of-range
descaled values are returned rather than rejected. -/
theorem C3_theorem (store : CPTStoreChain) :
    ((load_priors_and_cpts_from_chain store).1.priorPPHf =
      (store.priorPPH : ℚ) / (SCALE : ℚ)) ∧
    ((load_priors_and_cpts_from_chain store).1.priorPPRf =
      (store.priorPPR : ℚ) / (SCALE : ℚ)) ∧
    (∀ i name, (i, name) ∈ idx_to_name →
      cptLookup (load_priors_and_cpts_from_chain store).1.cpts name =
        some (cptTableFor store i)) ∧
    (∀ i pph ppr, pph < 2 → ppr < 2 →
      cellLookup (cptTableFor store i) pph ppr =
        (store.getEvidenceTrueCPT i pph ppr : ℚ) / (SCALE : ℚ)) := by
  refine ⟨rfl, rfl, ?_, ?_⟩
  · intro i name hmem
    fin_cases hmem <;>
      simp [cptLookup, load_priors_and_cpts_from_chain, idx_to_name,
        List.find?_cons]
  · intro i pph ppr hp hr
    interval_cases pph <;> interval_cases ppr <;>
      simp +decide [cellLookup, cptTableFor, List.find?_cons]

/-- C3 witness: on the neutral store, the returned GPS table at
`(pph,ppr) = (1,0)` is the raw value 500000 descaled to 1/2. -/
theorem C3_witness :
    cellLookup (cptTableFor uniStore 0) 1 0 =
      ((uniStore.getEvidenceTrueCPT 0 1 0 : ℤ) : ℚ) / (SCALE : ℚ) :=
  (C3_theorem uniStore).2.2.2 0 1 0 (by decide) (by decide)

/-- The snapshot folded from the single row GPS:=1. -/
theorem fetch_single :
    fetch_evidence_for_claim [⟨0, 1, 0⟩] = [("GPS", 1)] := rfl

/-- Value of `toScaledInt` at probability one half. -/
theorem toScaledInt_half : toScaledInt (2⁻¹ : ℚ) = 500000 := by
  unfold toScaledInt pyRound
  have h1 : (2⁻¹ : ℚ) * ((SCALE : ℤ) : ℚ) = ((500000 : ℤ) : ℚ) := by
    norm_num [SCALE]
  rw [h1, Int.floor_intCast]
  norm_num

/-- Inference on the neutral model with GPS observed true: a uniform
0.5 likelihood carries no information, so the posterior equals the
(uniform) priors. -/
theorem infer_uniModel_GPS :
    infer uniModel [("GPS", (1:ℤ))] = Except.ok ((1/2 : ℚ), (1/2 : ℚ)) := by
  simp +decide [infer, uniModel, uniStore, load_priors_and_cpts_from_chain,
    idx_to_name, cptTableFor, hiddenWeight, evidenceFactor, factorStep,
    cptLookup, cellLookup, jointPrior, SCALE, List.find?, Except.map]
  norm_num

/-- The sync step on the neutral model, on a claim store initially all
zero, with a concurrent writer that overwrites the claim with
(777, 777) between the submit and the read-back: the step completes
normally with a `committed` outcome carrying the mismatched read-back. -/
theorem sync_adversarial_eval :
    (compute_and_commit_posterior uniModel [⟨0, 1, 0⟩] 0
        (fun _ => ((0:ℤ), (0:ℤ)))
        (fun _ => fun _ => ((777:ℤ), (777:ℤ)))).1 =
      SyncResult.committed (500000, 500000) (777, 777) := by
  unfold compute_and_commit_posterior
  rw [fetch_single]
  simp [infer_uniModel_GPS, toScaledInt_half]

/-- C2 counterexample: after a posterior submission whose read-back
(777, 777) disagrees with the submitted pair (500000, 500000) — the
write was overwritten concurrently — the sync step continues silently
and returns a normal `committed` outcome; no `CommitVerificationError`
(indeed no comparison at all) exists in the code, contrary to the
claim. -/
theorem C2_counterexample :
    (compute_and_commit_posterior uniModel [⟨0, 1, 0⟩] 0
        (fun _ => ((0:ℤ), (0:ℤ)))
        (fun _ => fun _ => ((777:ℤ), (777:ℤ)))).1 =
      SyncResult.committed (500000, 500000) (777, 777) ∧
    ¬ ((777:ℤ), (777:ℤ)) = ((500000:ℤ), (500000:ℤ)) :=
  ⟨sync_adversarial_eval, by decide⟩

/-- C2 (amended): after every submission the sync step re-reads the
stored posterior of the claim and returns whatever the store then holds as
part of a normal `committed` outcome; it performs no comparison against
the submitted pair and raises no error when they disagree. -/
theorem C2_theorem (m : BNModel) (pieces : List EvidencePiece) (cid : ℕ)
    (s : ClaimState) (interfere : ClaimState → ClaimState)
    (sub rb : ℤ × ℤ)
    (h : (compute_and_commit_posterior m pieces cid s interfere).1 =
      SyncResult.committed sub rb) :
    rb = interfere (submitInference s cid sub.1 sub.2) cid := by
  unfold compute_and_commit_posterior at h
  by_cases hev : fetch_evidence_for_claim pieces = []
  · rw [if_pos hev] at h
    exact absurd h (by simp)
  · rw [if_neg hev] at h
    cases hinf : infer m (fetch_evidence_for_claim pieces) with
    | error e =>
      rw [hinf] at h
      exact absurd h (by simp)
    | ok post =>
      rw [hinf] at h
      dsimp only at h
      obtain ⟨hsub, hrb⟩ := SyncResult.committed.inj h
      subst hsub
      subst hrb
      rfl

/-- C2 witness: the amended statement applied to the concrete
adversarial run, where the returned read-back is exactly what the
interfered store holds. -/
theorem C2_witness :
    ((777:ℤ), (777:ℤ)) =
      (fun _ => fun _ => ((777:ℤ), (777:ℤ)))
        (submitInference (fun _ => ((0:ℤ), (0:ℤ))) 0
          (((500000:ℤ), (500000:ℤ)).1) (((500000:ℤ), (500000:ℤ)).2)) 0 :=
  C2_theorem uniModel [⟨0, 1, 0⟩] 0 (fun _ => ((0:ℤ), (0:ℤ)))
    (fun _ => fun _ => ((777:ℤ), (777:ℤ))) (500000, 500000) (777, 777)
    sync_adversarial_eval

/-- With no concurrent interference, the outcome of the sync step does not
depend on the starting claim-store state, and a committed read-back
always equals the submitted pair. -/
theorem sync_id_eval (m : BNModel) (pieces : List EvidencePiece)
    (cid : ℕ) (s0 : ClaimState) :
    (compute_and_commit_posterior m pieces cid s0 id).1 =
      (if fetch_evidence_for_claim pieces = [] then SyncResult.skipped
       else match infer m (fetch_evidence_for_claim pieces) with
         | Except.error e => SyncResult.inferFailed e
         | Except.ok post => SyncResult.committed
             (toScaledInt post.1, toScaledInt post.2)
             (toScaledInt post.1, toScaledInt post.2)) := by
  unfold compute_and_commit_posterior
  by_cases hev : fetch_evidence_for_claim pieces = []
  · rw [if_pos hev, if_pos hev]
  · rw [if_neg hev, if_neg hev]
    cases hinf : infer m (fetch_evidence_for_claim pieces) with
    | error e => rfl
    | ok post => simp [submitInference]

/-- Without interference, a committed read-back equals the submitted
pair. -/
theorem sync_id_readback (m : BNModel) (pieces : List EvidencePiece)
    (cid : ℕ) (s0 : ClaimState) (sub rb : ℤ × ℤ)
    (h : (compute_and_commit_posterior m pieces cid s0 id).1 =
      SyncResult.committed sub rb) : rb = sub := by
  rw [sync_id_eval] at h
  split at h
  · exact absurd h (by simp)
  · split at h
    · exact absurd h (by simp)
    · obtain ⟨h1, h2⟩ := SyncResult.committed.inj h
      rw [← h1, ← h2]

/-- C7: commit idempotence — running the sync step twice in succession
with the same evidence rows and the same model (no concurrent
interference) produces identical outcomes, in particular the same
submitted fixed-point pair, and in each run the read-back matches the
pair just submitted. -/
theorem C7_theorem (m : BNModel) (pieces : List EvidencePiece) (cid : ℕ)
    (s : ClaimState) :
    ((compute_and_commit_posterior m pieces cid s id).1 =
      (compute_and_commit_posterior m pieces cid
        (compute_and_commit_posterior m pieces cid s id).2.1 id).1) ∧
    (∀ sub rb, (compute_and_commit_posterior m pieces cid s id).1 =
      SyncResult.committed sub rb → rb = sub) ∧
    (∀ sub rb, (compute_and_commit_posterior m pieces cid
        (compute_and_commit_posterior m pieces cid s id).2.1 id).1 =
      SyncResult.committed sub rb → rb = sub) := by
  refine ⟨?_, ?_, ?_⟩
  · rw [sync_id_eval, sync_id_eval]
  · intro sub rb h
    exact sync_id_readback m pieces cid s sub rb h
  · intro sub rb h
    exact sync_id_readback m pieces cid _ sub rb h

/-- C7 witness: on the neutral model with the single piece GPS:=1, both
successive runs commit (500000, 500000) and the read-back of the first
run equals the submitted pair. -/
theorem C7_witness :
    ((compute_and_commit_posterior uniModel [⟨0, 1, 0⟩] 0
        (fun _ => ((0:ℤ), (0:ℤ))) id).1 =
      (compute_and_commit_posterior uniModel [⟨0, 1, 0⟩] 0
        (compute_and_commit_posterior uniModel [⟨0, 1, 0⟩] 0
          (fun _ => ((0:ℤ), (0:ℤ))) id).2.1 id).1) ∧
    ((500000:ℤ), (500000:ℤ)) = ((500000:ℤ), (500000:ℤ)) :=
  ⟨(C7_theorem uniModel [⟨0, 1, 0⟩] 0 (fun _ => ((0:ℤ), (0:ℤ)))).1,
   (C7_theorem uniModel [⟨0, 1, 0⟩] 0 (fun _ => ((0:ℤ), (0:ℤ)))).2.1
     (500000, 500000) (500000, 500000)
     (by rw [sync_id_eval, fetch_single]
         simp [infer_uniModel_GPS, toScaledInt_half])⟩

/-- C1 counterexample: the loader-built model `exModel` with evidence
GPS:=1 yields the exact posterior pair (1/640, 1/2); for the PPH
component p = 1/640, `p × SCALE = 1562.5` is a tie, and the conversion of the code,
`int(round(p * SCALE))` (Python half-to-even), yields 1562,
while the half-away-from-zero-with-clamp formula of the claim yields 1563 —
the conversion is not the claimed one. -/
theorem C1_counterexample :
    infer exModel [("GPS", (1:ℤ))] = Except.ok ((1/640 : ℚ), (1/2 : ℚ)) ∧
    toScaledInt (1/640) = 1562 ∧
    specRoundClamp (1/640) = 1563 ∧
    ¬ ((1562 : ℤ) = 1563) := by
  refine ⟨?_, ?_, ?_, by decide⟩
  · simp +decide [infer, exModel, exStore, load_priors_and_cpts_from_chain,
      idx_to_name, cptTableFor, hiddenWeight, evidenceFactor, factorStep,
      cptLookup, cellLookup, jointPrior, SCALE, List.find?, Except.map]
    norm_num
  · unfold toScaledInt pyRound
    have h1 : (1/640 : ℚ) * ((SCALE : ℤ) : ℚ) = 3125/2 := by
      norm_num [SCALE]
    rw [h1]
    have hfl : ⌊(3125/2 : ℚ)⌋ = 1562 := by norm_num [Int.floor_eq_iff]
    rw [hfl]
    norm_num
  · unfold specRoundClamp roundHalfAway
    have h1 : (1/640 : ℚ) * ((SCALE : ℤ) : ℚ) = 3125/2 := by
      norm_num [SCALE]
    rw [h1]
    have h2 : ⌊(3125/2 : ℚ) + 1/2⌋ = 1563 := by
      norm_num [Int.floor_eq_iff]
    rw [if_pos (by norm_num : (0:ℚ) ≤ 3125/2), h2]
    norm_num [SCALE]

/-- C1 (amended): the conversion at the ledger boundary is
`int(round(p × SCALE))` with Python 3 round semantics and no clamping:
the result is an integer within 1/2 of `p × SCALE`, an exact tie is
resolved to the even neighbour (not away from zero), and for
`p ∈ [0,1]` the result already lies in `[0, SCALE]` with no clamp
applied. -/
theorem C1_theorem (p : ℚ) :
    |((toScaledInt p : ℤ) : ℚ) - p * ((SCALE : ℤ) : ℚ)| ≤ 1/2 ∧
    (|((toScaledInt p : ℤ) : ℚ) - p * ((SCALE : ℤ) : ℚ)| = 1/2 →
      2 ∣ toScaledInt p) ∧
    (0 ≤ p → p ≤ 1 → 0 ≤ toScaledInt p ∧ toScaledInt p ≤ SCALE) := by
  set x : ℚ := p * ((SCALE : ℤ) : ℚ) with hxdef
  have hfl : ((⌊x⌋ : ℤ) : ℚ) ≤ x := Int.floor_le x
  have hfl2 : x < (⌊x⌋ : ℚ) + 1 := Int.lt_floor_add_one x
  have hrange : 0 ≤ p → p ≤ 1 → 0 ≤ x ∧ x ≤ ((SCALE : ℤ) : ℚ) := by
    intro h0 h1
    constructor
    · apply mul_nonneg h0
      norm_num [SCALE]
    · calc x = p * ((SCALE : ℤ) : ℚ) := hxdef
        _ ≤ 1 * ((SCALE : ℤ) : ℚ) := by
            apply mul_le_mul_of_nonneg_right h1
            norm_num [SCALE]
        _ = ((SCALE : ℤ) : ℚ) := one_mul _
  have hfloor_le : x ≤ ((SCALE : ℤ) : ℚ) → ⌊x⌋ ≤ SCALE := by
    intro hx
    have hc : ((⌊x⌋ : ℤ) : ℚ) ≤ ((SCALE : ℤ) : ℚ) := le_trans hfl hx
    exact_mod_cast hc
  unfold toScaledInt pyRound
  rw [← hxdef]
  by_cases h1 : x - (⌊x⌋ : ℚ) < 1/2
  · rw [if_pos h1]
    have habs : |((⌊x⌋ : ℤ) : ℚ) - x| = x - ⌊x⌋ := by
      rw [abs_sub_comm]
      exact abs_of_nonneg (by linarith)
    refine ⟨?_, ?_, ?_⟩
    · rw [habs]; linarith
    · intro htie; rw [habs] at htie; exfalso; linarith
    · intro h0 hp1
      obtain ⟨hx0, hx1⟩ := hrange h0 hp1
      exact ⟨Int.floor_nonneg.2 hx0, hfloor_le hx1⟩
  · push_neg at h1
    rw [if_neg (not_lt.2 h1)]
    by_cases h2 : 1/2 < x - (⌊x⌋ : ℚ)
    · rw [if_pos h2]
      have hc : (((⌊x⌋ + 1 : ℤ)) : ℚ) = (⌊x⌋ : ℚ) + 1 := by
        push_cast; ring
      have habs : |(((⌊x⌋ + 1 : ℤ)) : ℚ) - x| = (⌊x⌋ : ℚ) + 1 - x := by
        rw [hc]
        exact abs_of_nonneg (by linarith)
      refine ⟨?_, ?_, ?_⟩
      · rw [habs]; linarith
      · intro htie; rw [habs] at htie; exfalso; linarith
      · intro h0 hp1
        obtain ⟨hx0, hx1⟩ := hrange h0 hp1
        constructor
        · have := Int.floor_nonneg.2 hx0; omega
        · have hlt : ⌊x⌋ < SCALE := by
            by_contra hge
            push_neg at hge
            have hcast : ((SCALE : ℤ) : ℚ) ≤ (⌊x⌋ : ℚ) := by
              exact_mod_cast hge
            linarith
          omega
    · push_neg at h2
      rw [if_neg (not_lt.2 h2)]
      by_cases hd : 2 ∣ ⌊x⌋
      · rw [if_pos hd]
        have habs : |((⌊x⌋ : ℤ) : ℚ) - x| = 1/2 := by
          rw [abs_sub_comm, abs_of_nonneg (by linarith)]
          linarith
        refine ⟨le_of_eq habs, fun _ => hd, ?_⟩
        intro h0 hp1
        obtain ⟨hx0, hx1⟩ := hrange h0 hp1
        exact ⟨Int.floor_nonneg.2 hx0, hfloor_le hx1⟩
      · rw [if_neg hd]
        have hc : (((⌊x⌋ + 1 : ℤ)) : ℚ) = (⌊x⌋ : ℚ) + 1 := by
          push_cast; ring
        have habs : |(((⌊x⌋ + 1 : ℤ)) : ℚ) - x| = 1/2 := by
          rw [hc, abs_of_nonneg (by linarith)]
          linarith
        refine ⟨le_of_eq habs, fun _ => by omega, ?_⟩
        intro h0 hp1
        obtain ⟨hx0, hx1⟩ := hrange h0 hp1
        constructor
        · have := Int.floor_nonneg.2 hx0; omega
        · have hlt : ⌊x⌋ < SCALE := by
            by_contra hge
            push_neg at hge
            have hcast : ((SCALE : ℤ) : ℚ) ≤ (⌊x⌋ : ℚ) := by
              exact_mod_cast hge
            linarith
          omega

/-- C1 witness: at p = 3/2000000 (an exact tie, `p × SCALE = 1.5`) the
conversion returns the even neighbour 2, and for this in-range p the
result lies in `[0, SCALE]` without clamping. -/
theorem C1_witness :
    (2 ∣ toScaledInt (3/2000000)) ∧
    (0 ≤ toScaledInt (3/2000000) ∧ toScaledInt (3/2000000) ≤ SCALE) := by
  have hv : toScaledInt (3/2000000 : ℚ) = 2 := by
    unfold toScaledInt pyRound
    have h1 : (3/2000000 : ℚ) * ((SCALE : ℤ) : ℚ) = 3/2 := by
      norm_num [SCALE]
    rw [h1]
    have hfl : ⌊(3/2 : ℚ)⌋ = 1 := by norm_num [Int.floor_eq_iff]
    rw [hfl]
    norm_num
  have htie : |((toScaledInt (3/2000000 : ℚ) : ℤ) : ℚ) -
      (3/2000000 : ℚ) * ((SCALE : ℤ) : ℚ)| = 1/2 := by
    rw [hv]
    norm_num [SCALE]
  exact ⟨(C1_theorem (3/2000000)).2.1 htie,
    (C1_theorem (3/2000000)).2.2 (by norm_num) (by norm_num)⟩

end BNOracleSpec
